import Mathlib

/-!
Verification of the `card_deck` module (`deck.py`): cards, deck draw and
discard piles, and player hands.  The Python classes `Card`, `Deck` and
`Hand` are shallowly embedded below; mutation becomes explicit state
passing, and raised exceptions become `Except` results paired with the
(unchanged) state.
-/

namespace CardDeck

/-- Python runtime values that occur in the module: integers and strings.
`Card.__init__` receives an integer rank and a string suit, and its
membership tests compare such values for equality (an `int` never equals
a `str` in Python). -/
inductive PyVal where
  | int (n : Int)
  | str (s : String)
deriving DecidableEq, Repr

/-- The module-level list `suits = ['heart', 'spade', 'club', 'diamond']`
(the list in `Deck.__init__` rebinds the same contents locally). -/
def suits : List PyVal :=
  [.str "heart", .str "spade", .str "club", .str "diamond"]

/-- The exception classes raised by the module: `CardValueError`,
`CardSuitError`, `DeckOutOfCardsError`, the builtin `IndexError`
re-raised by `Hand.discard`, and the builtin `TypeError` (raised where a
call site passes the wrong number of arguments). -/
inductive PyExc where
  | cardValueError
  | cardSuitError
  | deckOutOfCardsError
  | indexError
  | typeError
deriving DecidableEq, Repr

/-- The attributes a constructed `Card` object stores: `self.value` and
`self.suit`, exactly the two arguments of `Card.__init__`. -/
structure CardObj where
  value : PyVal
  suit : PyVal
deriving DecidableEq, Repr

/-- Constructor `Card.__init__(value, suit)`: raises `CardValueError` when
`value not in suits`, then `CardSuitError` when `suit not in suits`,
otherwise stores both attributes.  Note that the first test checks the
`value` argument against the list of suit strings, exactly as the source
does. -/
def cardInit (value : PyVal) (suit : PyVal) : Except PyExc CardObj :=
  if value ∉ suits then .error .cardValueError
  else if suit ∉ suits then .error .cardSuitError
  else .ok ⟨value, suit⟩

/-- The local list `card_values = [1, ..., 13]` from `Deck.__init__`. -/
def card_values : List Int :=
  [1, 2, 3, 4, 5, 6, 7, 8, 9, 10, 11, 12, 13]

/-- One iteration of the outer `for deck_count in range(number_of_decks)`
loop of `Deck.__init__`: append `Card(card_value, suit)` for each suit and
each card value; then, when `using_jokers`, execute
`self.deck.append(Card(14), Card(14))` — `Card(14)` omits the required
`suit` argument, so that line raises `TypeError`. -/
def oneDeckCopy (using_jokers : Bool) : Except PyExc (List CardObj) := do
  let cards ← suits.foldlM (fun acc suit => do
      card_values.foldlM (fun acc2 v => do
          let c ← cardInit (.int v) suit
          pure (acc2 ++ [c])) acc) []
  if using_jokers then
    .error .typeError
  else
    pure cards

/-- The two mutable piles a `Deck` object owns: `self.deck` (the draw
pile) and `self.discard`.  The element type is a parameter because the
pile operations never inspect the cards they move. -/
structure DeckSt (α : Type) where
  deck : List α
  discard : List α
deriving DecidableEq, Repr

/-- Constructor `Deck.__init__(number_of_decks, using_jokers)`: builds the draw pile
by the nested loops over deck copies, suits and card values, starting from
`self.deck = []` and `self.discard = []`. -/
def deckInit (number_of_decks : Nat) (using_jokers : Bool) :
    Except PyExc (DeckSt CardObj) := do
  let cards ← (List.range number_of_decks).foldlM (fun acc _ => do
      let copy ← oneDeckCopy using_jokers
      pure (acc ++ copy)) []
  pure ⟨cards, []⟩

/-- The four recognized suit strings, as an enumeration.  `compare` and
`suitCompare` are specified on valid cards (numeric rank, suit one of the
four keys of `suit_value_dict`), so they are embedded over this type. -/
inductive Suit where
  | heart
  | spade
  | club
  | diamond
deriving DecidableEq, Repr

/-- The module-level table
`suit_value_dict = \x7b'heart': 3, 'diamond': 2, 'spade': 1, 'club': 0\x7d`,
as the lookup function it implements on the four keys. -/
def suit_value_dict : Suit → Int
  | .heart => 3
  | .diamond => 2
  | .spade => 1
  | .club => 0

/-- A valid card as `compare` sees it: attributes `self.value` (numeric)
and `self.suit` (one of the four recognized suits). -/
structure Card where
  value : Int
  suit : Suit
deriving DecidableEq, Repr

/-- Method `Card.suitCompare(card)`: the `if`/`elif` chain on
`suit_value_dict[self.suit]` versus `suit_value_dict[card.suit]`.  A
Python function whose chain fires no branch returns `None`; that
fall-through is kept as `none`. -/
def Card.suitCompare (a : Card) (b : Card) : Option Int :=
  if suit_value_dict a.suit = suit_value_dict b.suit then some 0
  else if suit_value_dict a.suit > suit_value_dict b.suit then some 1
  else if suit_value_dict a.suit < suit_value_dict b.suit then some (-1)
  else none

/-- Method `Card.compare(card)`: equal values defer to `suitCompare`; otherwise
the `elif` chain on `self.value` versus `card.value`, with the same
`None` fall-through as `suitCompare`. -/
def Card.compare (a : Card) (b : Card) : Option Int :=
  if a.value = b.value then a.suitCompare b
  else if a.value > b.value then some 1
  else if a.value < b.value then some (-1)
  else none

/-- Method `Deck.shuffle()`: `self.deck += self.discard; self.discard = []`,
then `random.shuffle(self.deck)` permutes the draw pile in place.  The
randomness source is the external collaborator `rand`; theorems assume
only that it permutes its input. -/
def Deck.shuffle {α : Type} (rand : List α → List α) (d : DeckSt α) :
    DeckSt α :=
  ⟨rand (d.deck ++ d.discard), []⟩

/-- Method `Deck.draw()`: `self.deck.pop(0)` removes and returns the front card;
an empty draw pile raises `IndexError`, caught and re-raised as
`DeckOutOfCardsError`.  The second component is the deck state after the
call (unchanged when the call raises). -/
def Deck.draw {α : Type} (d : DeckSt α) : Except PyExc α × DeckSt α :=
  match d.deck with
  | [] => (.error .deckOutOfCardsError, d)
  | c :: rest => (.ok c, ⟨rest, d.discard⟩)

/-- Method `Deck.addToDiscard(card)`: `self.discard.append(card)`,
unconditionally. -/
def Deck.addToDiscard {α : Type} (d : DeckSt α) (card : α) : DeckSt α :=
  ⟨d.deck, d.discard ++ [card]⟩

/-- Method `Hand.draw(deck)`: `self.hand.append(deck.draw())`, with
`DeckOutOfCardsError` caught and re-raised; on failure the hand list was
never touched.  Returns (result, hand after, deck after). -/
def Hand.draw {α : Type} (hand : List α) (d : DeckSt α) :
    Except PyExc Unit × List α × DeckSt α :=
  match Deck.draw d with
  | (.ok c, d2) => (.ok (), hand ++ [c], d2)
  | (.error e, d2) => (.error e, hand, d2)

/-- Python's index normalization for sequences: a negative index has the
length added to it before the bounds check. -/
def pyIndex (i : Int) (n : Nat) : Int :=
  if i < 0 then i + n else i

/-- Python's `list.pop(i)`: normalize the index, raise `IndexError`
(modelled as `none`) when it is out of `0 ≤ · < len` after
normalization, otherwise remove and return the element there. -/
def pyPop {α : Type} (l : List α) (i : Int) : Option (α × List α) :=
  if h : 0 ≤ pyIndex i l.length ∧ pyIndex i l.length < (l.length : Int) then
    some (l.get ⟨(pyIndex i l.length).toNat, by omega⟩,
          l.take (pyIndex i l.length).toNat ++
            l.drop ((pyIndex i l.length).toNat + 1))
  else none

/-- Method `Hand.discard(deck, card_index)`:
`deck.addToDiscard(self.hand.pop(card_index))`.  `pop` is evaluated
first, so when it raises `IndexError` (re-raised by the `except` clause)
neither the hand nor the deck has been modified.  Returns
(result, hand after, deck after). -/
def Hand.discard {α : Type} (hand : List α) (d : DeckSt α)
    (card_index : Int) : Except PyExc Unit × List α × DeckSt α :=
  match pyPop hand card_index with
  | some (c, hand2) => (.ok (), hand2, Deck.addToDiscard d c)
  | none => (.error .indexError, hand, d)

/-- The joint state of one deck and one hand, for the conservation
invariant. -/
structure GameSt (α : Type) where
  deck : DeckSt α
  hand : List α
deriving DecidableEq, Repr

/-- The operations a caller can run against a deck/hand pair: drawing
into the hand, discarding a hand position, and shuffling the deck (with
its randomness source). -/
inductive Op (α : Type) where
  | handDraw
  | handDiscard (i : Int)
  | deckShuffle (rand : List α → List α)

/-- Run one operation; a raised exception leaves the state as the
operations themselves left it (for these operations, unchanged). -/
def stepOp {α : Type} (s : GameSt α) (op : Op α) : GameSt α :=
  match op with
  | .handDraw =>
      let r := Hand.draw s.hand s.deck
      ⟨r.2.2, r.2.1⟩
  | .handDiscard i =>
      let r := Hand.discard s.hand s.deck i
      ⟨r.2.2, r.2.1⟩
  | .deckShuffle rand => ⟨Deck.shuffle rand s.deck, s.hand⟩

/-- Run a sequence of operations left to right. -/
def runOps {α : Type} (s : GameSt α) (ops : List (Op α)) : GameSt α :=
  ops.foldl stepOp s

/-- The multiset of cards across the three locations: draw pile, discard
pile, hand. -/
def cardsOf {α : Type} (s : GameSt α) : Multiset α :=
  (s.deck.deck : Multiset α) + (s.deck.discard : Multiset α) +
    (s.hand : Multiset α)

/-! ### Helper lemmas -/

lemma oneDeckCopy_err (j : Bool) : oneDeckCopy j = .error .cardValueError := by
  cases j <;> rfl

lemma foldlM_deckCopy_err (j : Bool) (a : List CardObj) (x : Nat)
    (t : List Nat) :
    (x :: t).foldlM (fun acc _ => do
        let copy ← oneDeckCopy j
        pure (acc ++ copy)) a =
      (.error .cardValueError : Except PyExc (List CardObj)) := by
  simp only [List.foldlM_cons, oneDeckCopy_err]
  rfl

/-! ### Claims about card construction -/

/-- Claim C1: the constructor is claimed to accept every valid rank/suit
pair and reject exactly the invalid ones.  In fact `Card.__init__` tests
its numeric `value` argument for membership in the list of suit strings,
so every integer rank — valid or not — raises `CardValueError`, while a
suit string passed as the rank is accepted. -/
theorem cardInit_rank_checked_against_suits :
    (∀ (n : Int) (s : PyVal), cardInit (.int n) s = .error .cardValueError) ∧
    cardInit (.str "heart") (.str "heart") =
      .ok ⟨.str "heart", .str "heart"⟩ := by
  constructor
  · intro n s
    simp [cardInit, suits]
  · rfl

/-- Claim C2: deck construction is claimed to produce 52 cards per deck
copy.  In fact, for every positive deck count the very first
`Card(1, 'heart')` call raises `CardValueError` (its rank is checked
against the suit list), so `Deck.__init__` never completes. -/
theorem deckInit_raises_cardValueError (m : Nat) (j : Bool) :
    deckInit (m + 1) j = .error .cardValueError := by
  unfold deckInit
  rw [List.range_succ_eq_map]
  rw [foldlM_deckCopy_err]
  rfl

/-! ### Comparison helpers -/

/-- The total comparison both `if`/`elif` chains implement on numbers. -/
def pyCmp (x y : Int) : Int :=
  if x = y then 0 else if x > y then 1 else -1

lemma pyCmp_neg (x y : Int) : pyCmp x y = -pyCmp y x := by
  unfold pyCmp
  split_ifs <;> omega

lemma pyCmp_mem (x y : Int) : pyCmp x y = -1 ∨ pyCmp x y = 0 ∨ pyCmp x y = 1 := by
  unfold pyCmp
  split_ifs <;> omega

lemma suitCompare_eq (a b : Card) :
    Card.suitCompare a b =
      some (pyCmp (suit_value_dict a.suit) (suit_value_dict b.suit)) := by
  unfold Card.suitCompare pyCmp
  split_ifs with h1 h2 h3 <;> first | rfl | omega

lemma compare_eq (a b : Card) :
    Card.compare a b =
      some (if a.value = b.value then
              pyCmp (suit_value_dict a.suit) (suit_value_dict b.suit)
            else pyCmp a.value b.value) := by
  unfold Card.compare
  split_ifs with h1 h2 h3
  · exact suitCompare_eq a b
  · unfold pyCmp
    rw [if_neg h1, if_pos h2]
  · unfold pyCmp
    rw [if_neg h1, if_neg (by omega : ¬a.value > b.value)]
  · omega

lemma suit_value_dict_injective (s t : Suit) :
    suit_value_dict s = suit_value_dict t ↔ s = t := by
  cases s <;> cases t <;> decide

lemma compare_eq_one_iff (a b : Card) :
    Card.compare a b = some 1 ↔
      (b.value < a.value ∨
        (a.value = b.value ∧
          suit_value_dict b.suit < suit_value_dict a.suit)) := by
  rw [compare_eq, Option.some.injEq]
  unfold pyCmp
  split_ifs <;> first
    | omega
    | (rw [false_iff]; omega)

lemma compare_eq_zero_iff (a b : Card) :
    Card.compare a b = some 0 ↔ (a.value = b.value ∧ a.suit = b.suit) := by
  rw [compare_eq, Option.some.injEq, ← suit_value_dict_injective]
  unfold pyCmp
  split_ifs <;> first
    | omega
    | (rw [false_iff]; omega)

/-! ### Claims about card comparison -/

/-- Claim C4: on valid cards `compare` is a strict total order:
antisymmetric (`compare a b` is the negation of `compare b a`),
transitive, and `0` exactly when rank and suit both agree. -/
theorem compare_strict_total_order (a b c : Card) :
    Card.compare a b = (Card.compare b a).map (fun r => -r) ∧
    (Card.compare a b = some 1 → Card.compare b c = some 1 →
      Card.compare a c = some 1) ∧
    (Card.compare a b = some 0 ↔ a.value = b.value ∧ a.suit = b.suit) := by
  refine ⟨?_, ?_, compare_eq_zero_iff a b⟩
  · rw [compare_eq, compare_eq, Option.map_some']
    congr 1
    by_cases h : a.value = b.value
    · rw [if_pos h, if_pos h.symm, pyCmp_neg]
    · rw [if_neg h, if_neg (fun hh => h hh.symm), pyCmp_neg]
  · rw [compare_eq_one_iff, compare_eq_one_iff, compare_eq_one_iff]
    intro h1 h2
    rcases h1 with h1 | ⟨h1, h1s⟩ <;> rcases h2 with h2 | ⟨h2, h2s⟩ <;>
      [left; left; left; right] <;> omega

/-- Witness for C4 at concrete cards: transitivity chains
7♥ > 5♣ > 3♠ into 7♥ > 3♠. -/
theorem compare_strict_total_order_witness :
    Card.compare ⟨7, .heart⟩ ⟨3, .spade⟩ = some 1 :=
  (compare_strict_total_order ⟨7, .heart⟩ ⟨5, .club⟩ ⟨3, .spade⟩).2.1
    (by decide) (by decide)

/-- Claim C5: on a rank tie `compare` defers to the fixed suit ranking
heart=3 > diamond=2 > spade=1 > club=0, with the two quoted concrete
comparisons. -/
theorem compare_suit_tiebreak :
    (suit_value_dict .heart = 3 ∧ suit_value_dict .diamond = 2 ∧
      suit_value_dict .spade = 1 ∧ suit_value_dict .club = 0) ∧
    (∀ a b : Card, a.value = b.value →
      Card.compare a b = Card.suitCompare a b) ∧
    (∀ a b : Card, a.value = b.value →
      (Card.compare a b = some 1 ↔
        suit_value_dict b.suit < suit_value_dict a.suit)) ∧
    Card.compare ⟨5, .heart⟩ ⟨5, .diamond⟩ = some 1 ∧
    Card.compare ⟨5, .club⟩ ⟨5, .spade⟩ = some (-1) := by
  refine ⟨by decide, ?_, ?_, by decide, by decide⟩
  · intro a b h
    unfold Card.compare
    rw [if_pos h]
  · intro a b h
    rw [compare_eq_one_iff]
    omega

/-- Witness for C5: the tie-break conjuncts applied at concrete cards
with equal ranks. -/
theorem compare_suit_tiebreak_witness :
    Card.compare ⟨9, .spade⟩ ⟨9, .club⟩ = Card.suitCompare ⟨9, .spade⟩ ⟨9, .club⟩ ∧
    Card.compare ⟨9, .spade⟩ ⟨9, .club⟩ = some 1 :=
  ⟨compare_suit_tiebreak.2.1 ⟨9, .spade⟩ ⟨9, .club⟩ rfl,
   (compare_suit_tiebreak.2.2.1 ⟨9, .spade⟩ ⟨9, .club⟩ rfl).mpr (by decide)⟩

/-- Claim C10: on cards whose suits are keys of `suit_value_dict`, the
`if`/`elif` chains of `compare` and `suitCompare` are exhaustive: each
call returns (never the implicit `None` fall-through) and the result is
one of -1, 0, 1. -/
theorem compare_chains_exhaustive (a b : Card) :
    (∃ r, Card.suitCompare a b = some r ∧ (r = -1 ∨ r = 0 ∨ r = 1)) ∧
    (∃ r, Card.compare a b = some r ∧ (r = -1 ∨ r = 0 ∨ r = 1)) := by
  refine ⟨⟨_, suitCompare_eq a b, pyCmp_mem _ _⟩, ⟨_, compare_eq a b, ?_⟩⟩
  by_cases h : a.value = b.value
  · rw [if_pos h]
    exact pyCmp_mem _ _
  · rw [if_neg h]
    exact pyCmp_mem _ _

/-! ### Claims about the deck lifecycle -/

/-- Claim C6: for any randomness source that permutes its input,
`shuffle` leaves the draw pile a permutation of the prior draw pile plus
the prior discard pile, and empties the discard pile. -/
theorem shuffle_perm_and_clears_discard (α : Type)
    (rand : List α → List α) (hrand : ∀ l, (rand l).Perm l)
    (d : DeckSt α) :
    ((Deck.shuffle rand d).deck).Perm (d.deck ++ d.discard) ∧
    (Deck.shuffle rand d).discard = [] :=
  ⟨hrand (d.deck ++ d.discard), rfl⟩

/-- Witness for C6 with the identity permutation on a concrete deck. -/
theorem shuffle_perm_witness :
    ((Deck.shuffle (fun l => l)
        (⟨[⟨1, .heart⟩], [⟨2, .spade⟩]⟩ : DeckSt Card)).deck).Perm
      ([⟨1, .heart⟩] ++ [⟨2, .spade⟩]) ∧
    (Deck.shuffle (fun l => l)
        (⟨[⟨1, .heart⟩], [⟨2, .spade⟩]⟩ : DeckSt Card)).discard = [] :=
  shuffle_perm_and_clears_discard Card (fun l => l)
    (fun l => List.Perm.refl l) ⟨[⟨1, .heart⟩], [⟨2, .spade⟩]⟩

/-- Claim C7: `draw` removes and returns the front card of a non-empty
draw pile, fails with `DeckOutOfCardsError` exactly when the draw pile
is empty, and on failure changes neither pile. -/
theorem draw_front_or_exhausted (α : Type) (d : DeckSt α) :
    (d.deck = [] → Deck.draw d = (.error .deckOutOfCardsError, d)) ∧
    (∀ c rest, d.deck = c :: rest →
      Deck.draw d = (.ok c, ⟨rest, d.discard⟩)) ∧
    ((∃ e, (Deck.draw d).1 = .error e) ↔ d.deck = []) := by
  rcases d with ⟨deck, disc⟩
  cases deck with
  | nil =>
      refine ⟨fun _ => rfl, ?_, ?_⟩
      · intro c rest h
        cases h
      · simp [Deck.draw]
  | cons c rest =>
      refine ⟨?_, ?_, ?_⟩
      · intro h
        cases h
      · intro c2 rest2 h
        cases h
        rfl
      · simp [Deck.draw]

/-- Witness for C7: drawing from an exhausted deck and from a singleton
deck. -/
theorem draw_front_or_exhausted_witness :
    Deck.draw (⟨[], [⟨3, .club⟩]⟩ : DeckSt Card) =
      (.error .deckOutOfCardsError, ⟨[], [⟨3, .club⟩]⟩) ∧
    Deck.draw (⟨[⟨4, .diamond⟩], []⟩ : DeckSt Card) =
      (.ok ⟨4, .diamond⟩, ⟨[], []⟩) :=
  ⟨(draw_front_or_exhausted Card ⟨[], [⟨3, .club⟩]⟩).1 rfl,
   (draw_front_or_exhausted Card ⟨[⟨4, .diamond⟩], []⟩).2.1
     ⟨4, .diamond⟩ [] rfl⟩

/-- Claim C8: `Hand.draw` appends the drawn card at the end of the hand
on success, and on an exhausted deck propagates `DeckOutOfCardsError`
with the hand (and deck) unmodified. -/
theorem hand_draw_appends_or_propagates (α : Type) (hand : List α)
    (d : DeckSt α) :
    (∀ c rest, d.deck = c :: rest →
      Hand.draw hand d = (.ok (), hand ++ [c], ⟨rest, d.discard⟩)) ∧
    (d.deck = [] →
      Hand.draw hand d = (.error .deckOutOfCardsError, hand, d)) := by
  rcases d with ⟨deck, disc⟩
  cases deck with
  | nil =>
      refine ⟨?_, fun _ => rfl⟩
      intro c rest h
      cases h
  | cons c rest =>
      refine ⟨?_, ?_⟩
      · intro c2 rest2 h
        cases h
        rfl
      · intro h
        cases h

/-- Witness for C8 on a one-card deck and on an exhausted deck. -/
theorem hand_draw_appends_witness :
    Hand.draw ([⟨9, .heart⟩] : List Card) (⟨[⟨4, .diamond⟩], []⟩ : DeckSt Card) =
      (.ok (), [⟨9, .heart⟩, ⟨4, .diamond⟩], ⟨[], []⟩) ∧
    Hand.draw ([⟨9, .heart⟩] : List Card) (⟨[], []⟩ : DeckSt Card) =
      (.error .deckOutOfCardsError, [⟨9, .heart⟩], ⟨[], []⟩) :=
  ⟨(hand_draw_appends_or_propagates Card [⟨9, .heart⟩]
      ⟨[⟨4, .diamond⟩], []⟩).1 ⟨4, .diamond⟩ [] rfl,
   (hand_draw_appends_or_propagates Card [⟨9, .heart⟩] ⟨[], []⟩).2 rfl⟩

/-! ### Claims about discarding from a hand -/

lemma pyIndex_valid_iff (i : Int) (n : Nat) :
    (0 ≤ pyIndex i n ∧ pyIndex i n < (n : Int)) ↔
      (-(n : Int) ≤ i ∧ i < (n : Int)) := by
  unfold pyIndex
  split_ifs with h <;> omega

/-- Counterexample to claim C3 as stated: on a one-card hand the index
-1 is outside `0 ≤ index < hand size`, yet `hand.pop(-1)` succeeds
(Python indexes from the end on negative arguments), so `discard`
removes the card and appends it to the discard pile instead of failing
with `IndexError`. -/
theorem hand_discard_negative_index_counterexample :
    ¬(0 ≤ (-1 : Int) ∧
        (-1 : Int) < (([⟨5, Suit.heart⟩] : List Card).length : Int)) ∧
    Hand.discard ([⟨5, Suit.heart⟩] : List Card) (⟨[], []⟩ : DeckSt Card)
        (-1) =
      (.ok (), [], ⟨[], [⟨5, Suit.heart⟩]⟩) := by
  refine ⟨by decide, ?_⟩
  rfl

/-- Claim C3 amended: `Hand.discard` fails with `IndexError` if and only
if the index is outside Python's valid index range
`-size ≤ index < size` (negative indices count from the end); on failure
hand and deck are unmodified, and on success the card at the normalized
position is removed from the hand and appended to the deck's discard
pile. -/
theorem hand_discard_python_index (α : Type) (hand : List α)
    (d : DeckSt α) (i : Int) :
    ((Hand.discard hand d i).1 = .error .indexError ↔
      ¬(-(hand.length : Int) ≤ i ∧ i < (hand.length : Int))) ∧
    (¬(-(hand.length : Int) ≤ i ∧ i < (hand.length : Int)) →
      Hand.discard hand d i = (.error .indexError, hand, d)) ∧
    (-(hand.length : Int) ≤ i ∧ i < (hand.length : Int) →
      Hand.discard hand d i =
        (.ok (),
         hand.take (pyIndex i hand.length).toNat ++
           hand.drop ((pyIndex i hand.length).toNat + 1),
         ⟨d.deck,
          d.discard ++ (hand.drop (pyIndex i hand.length).toNat).take 1⟩)) := by
  have hiff := pyIndex_valid_iff i hand.length
  by_cases hc : 0 ≤ pyIndex i hand.length ∧
      pyIndex i hand.length < (hand.length : Int)
  · have hk : (pyIndex i hand.length).toNat < hand.length := by omega
    have hpop : pyPop hand i =
        some (hand.get ⟨(pyIndex i hand.length).toNat, hk⟩,
          hand.take (pyIndex i hand.length).toNat ++
            hand.drop ((pyIndex i hand.length).toNat + 1)) := by
      unfold pyPop
      rw [dif_pos hc]
    refine ⟨?_, ?_, ?_⟩
    · constructor
      · intro h
        rw [Hand.discard, hpop] at h
        cases h
      · intro hr
        exact absurd (hiff.mp hc) hr
    · intro hr
      exact absurd (hiff.mp hc) hr
    · intro _
      rw [Hand.discard, hpop]
      simp [Deck.addToDiscard, List.take_one_drop_eq_of_lt_length hk]
  · have hpop : pyPop hand i = none := by
      unfold pyPop
      rw [dif_neg hc]
    refine ⟨?_, ?_, ?_⟩
    · constructor
      · intro _
        exact fun hr => hc (hiff.mpr hr)
      · intro _
        rw [Hand.discard, hpop]
    · intro _
      rw [Hand.discard, hpop]
    · intro hr
      exact absurd (hiff.mpr hr) hc

/-- Witness for the amended C3: discarding position 1 of a two-card hand
succeeds and moves that card to the discard pile; index 5 on a one-card
hand fails and leaves both containers untouched. -/
theorem hand_discard_python_index_witness :
    Hand.discard ([⟨1, Suit.heart⟩, ⟨2, Suit.club⟩] : List Card)
        (⟨[], []⟩ : DeckSt Card) 1 =
      (.ok (),
       ([⟨1, Suit.heart⟩, ⟨2, Suit.club⟩] : List Card).take
           (pyIndex 1 2).toNat ++
         ([⟨1, Suit.heart⟩, ⟨2, Suit.club⟩] : List Card).drop
           ((pyIndex 1 2).toNat + 1),
       ⟨[], [] ++ (([⟨1, Suit.heart⟩, ⟨2, Suit.club⟩] : List Card).drop
           (pyIndex 1 2).toNat).take 1⟩) ∧
    Hand.discard ([⟨1, Suit.heart⟩] : List Card) (⟨[], []⟩ : DeckSt Card)
        5 =
      (.error .indexError, [⟨1, Suit.heart⟩], ⟨[], []⟩) :=
  ⟨(hand_discard_python_index Card [⟨1, Suit.heart⟩, ⟨2, Suit.club⟩]
      ⟨[], []⟩ 1).2.2 (by decide),
   (hand_discard_python_index Card [⟨1, Suit.heart⟩] ⟨[], []⟩ 5).2.1
     (by decide)⟩

/-! ### Card conservation -/

lemma cardsOf_stepOp (α : Type) (s : GameSt α) (op : Op α)
    (hop : ∀ rand, op = Op.deckShuffle rand → ∀ l, (rand l).Perm l) :
    cardsOf (stepOp s op) = cardsOf s := by
  rcases s with ⟨⟨deck, disc⟩, hand⟩
  cases op with
  | handDraw =>
      cases deck with
      | nil => rfl
      | cons c rest =>
          show (rest : Multiset α) + (disc : Multiset α) +
                ((hand : Multiset α) + (([c] : List α) : Multiset α)) =
              ((([c] : List α) : Multiset α) + (rest : Multiset α)) +
                (disc : Multiset α) + (hand : Multiset α)
          abel
  | handDiscard i =>
      by_cases hc : 0 ≤ pyIndex i hand.length ∧
          pyIndex i hand.length < (hand.length : Int)
      · have hk : (pyIndex i hand.length).toNat < hand.length := by omega
        have hpop : pyPop hand i =
            some (hand.get ⟨(pyIndex i hand.length).toNat, hk⟩,
              hand.take (pyIndex i hand.length).toNat ++
                hand.drop ((pyIndex i hand.length).toNat + 1)) := by
          unfold pyPop
          rw [dif_pos hc]
        have hd : Hand.discard hand (⟨deck, disc⟩ : DeckSt α) i =
            (.ok (),
             hand.take (pyIndex i hand.length).toNat ++
               hand.drop ((pyIndex i hand.length).toNat + 1),
             ⟨deck, disc ++ [hand.get ⟨(pyIndex i hand.length).toNat, hk⟩]⟩) := by
          rw [Hand.discard, hpop]
          rfl
        show cardsOf ⟨(Hand.discard hand ⟨deck, disc⟩ i).2.2,
            (Hand.discard hand ⟨deck, disc⟩ i).2.1⟩ = _
        rw [hd]
        conv_rhs =>
          rw [show hand = hand.take (pyIndex i hand.length).toNat ++
                hand.drop (pyIndex i hand.length).toNat from
              (List.take_append_drop _ hand).symm,
            List.drop_eq_getElem_cons hk]
        show (deck : Multiset α) +
              ((disc : Multiset α) +
                (([hand.get ⟨(pyIndex i hand.length).toNat, hk⟩] : List α) :
                  Multiset α)) +
              ((hand.take (pyIndex i hand.length).toNat : Multiset α) +
                (hand.drop ((pyIndex i hand.length).toNat + 1) : Multiset α)) =
            (deck : Multiset α) + (disc : Multiset α) +
              ((hand.take (pyIndex i hand.length).toNat : Multiset α) +
                ((([hand.get ⟨(pyIndex i hand.length).toNat, hk⟩] : List α) :
                    Multiset α) +
                  (hand.drop ((pyIndex i hand.length).toNat + 1) : Multiset α)))
        abel
      · have hpop : pyPop hand i = none := by
          unfold pyPop
          rw [dif_neg hc]
        show cardsOf ⟨(Hand.discard hand ⟨deck, disc⟩ i).2.2,
            (Hand.discard hand ⟨deck, disc⟩ i).2.1⟩ = _
        rw [Hand.discard, hpop]
  | deckShuffle rand =>
      have hperm : (rand (deck ++ disc)).Perm (deck ++ disc) := hop rand rfl _
      show ((rand (deck ++ disc) : List α) : Multiset α) +
            (([] : List α) : Multiset α) + (hand : Multiset α) =
          (deck : Multiset α) + (disc : Multiset α) + (hand : Multiset α)
      rw [Multiset.coe_eq_coe.mpr hperm]
      show ((deck : Multiset α) + (disc : Multiset α)) + (0 : Multiset α) +
            (hand : Multiset α) =
          (deck : Multiset α) + (disc : Multiset α) + (hand : Multiset α)
      abel

lemma cardsOf_runOps (α : Type) (ops : List (Op α)) :
    ∀ s : GameSt α,
      (∀ rand, Op.deckShuffle rand ∈ ops → ∀ l, (rand l).Perm l) →
        cardsOf (runOps s ops) = cardsOf s := by
  induction ops with
  | nil =>
      intro s _
      rfl
  | cons op t ih =>
      intro s hops
      have h1 : cardsOf (stepOp s op) = cardsOf s := by
        apply cardsOf_stepOp
        intro rand hr l
        apply hops rand
        rw [← hr]
        exact List.mem_cons_self _ _
      calc cardsOf (runOps s (op :: t))
          = cardsOf (runOps (stepOp s op) t) := rfl
        _ = cardsOf (stepOp s op) :=
            ih (stepOp s op)
              (fun rand hm l => hops rand (List.mem_cons_of_mem _ hm) l)
        _ = cardsOf s := h1

/-- Claim C9: along any sequence of hand draws, hand discards and
shuffles (with permutation-respecting randomness), the multiset of cards
across draw pile, discard pile and hand is conserved — no duplication,
no loss — and so is its size; in particular a 52-card total stays 52. -/
theorem cards_conserved (α : Type) (s : GameSt α) (ops : List (Op α))
    (hops : ∀ rand, Op.deckShuffle rand ∈ ops → ∀ l, (rand l).Perm l) :
    cardsOf (runOps s ops) = cardsOf s ∧
    Multiset.card (cardsOf (runOps s ops)) = Multiset.card (cardsOf s) ∧
    (Multiset.card (cardsOf s) = 52 →
      Multiset.card (cardsOf (runOps s ops)) = 52) := by
  have key := cardsOf_runOps α ops s hops
  refine ⟨key, by rw [key], fun h => by rw [key, h]⟩

/-- Witness for C9: two draws, a discard and an identity shuffle on a
concrete three-card deck conserve the card multiset. -/
theorem cards_conserved_witness :
    cardsOf (runOps
        (⟨⟨[⟨1, .heart⟩, ⟨2, .spade⟩, ⟨3, .club⟩], []⟩, []⟩ : GameSt Card)
        [.handDraw, .handDraw, .handDiscard 0, .deckShuffle (fun l => l)]) =
      cardsOf
        (⟨⟨[⟨1, .heart⟩, ⟨2, .spade⟩, ⟨3, .club⟩], []⟩, []⟩ : GameSt Card) :=
  (cards_conserved Card
      ⟨⟨[⟨1, .heart⟩, ⟨2, .spade⟩, ⟨3, .club⟩], []⟩, []⟩
      [.handDraw, .handDraw, .handDiscard 0, .deckShuffle (fun l => l)]
      (by
        intro rand hm l
        simp only [List.mem_cons, List.not_mem_nil, or_false,
          reduceCtorEq, false_or, Op.deckShuffle.injEq] at hm
        subst hm
        exact List.Perm.refl l)).1

end CardDeck
